import Mathlib

/-!
Verification development for the `ai` CLI's API client (`src/ai/api.py`,
class `ProxyAPIClient`).

The Python source is shallowly embedded:

* Strings are Lean `String`s; Python's `str.lower` and the `in`
  substring test are modelled character-by-character for ASCII input
  (`pyLower`, `inStr`).
* A chat message (a Python dict `{"role": ..., "content": ...}`) is the
  structure `Msg`.
* An upstream exception is the structure `Err`: an identity tag plus the
  message text that `str(e)` would produce; re-raising an exception
  unchanged is modelled as returning the same `Err` value.
* The network is an oracle (`Upstream`): a deterministic map from the
  exact keyword arguments the client builds to the upstream behaviour
  (returned text, streamed fragments, or a raised error).
* The thread/queue streaming bridge of `chat_completion` is modelled as
  a small-step system: the producer thread's queue actions are fixed by
  its outcome (`producerPuts`), and the consumer loop runs against an
  arbitrary finite interleaving (`Ev` schedule) of producer puts,
  timed-out pops, and dead-thread drains.  The model assumes the
  provider call terminates, so the bounded `thread.join(timeout=5)` in
  the `finally` block succeeds and `stream_error[0]` holds the
  producer's error, if any.
* Generators are modelled by the list of fragments they yield together
  with the optional error that terminates the iteration (`CCResult`);
  console printing and logging are I/O effects outside the model.
-/

/-- Python `str.lower` on one ASCII character. -/
def lowerChar (c : Char) : Char :=
  if 'A' ≤ c ∧ c ≤ 'Z' then Char.ofNat (c.toNat + 32) else c

/-- Python `str.lower` (ASCII model): lowercases every character. -/
def pyLower (s : String) : String := ⟨s.data.map lowerChar⟩

/-- Is the first list a prefix of the second?  (Helper for `subOf`.) -/
def prefixOf : List Char → List Char → Bool
  | [], _ => true
  | _ :: _, [] => false
  | a :: as, b :: bs => a == b && prefixOf as bs

/-- Does `pat` occur as a contiguous sublist of the second argument? -/
def subOf (pat : List Char) : List Char → Bool
  | [] => pat.isEmpty
  | c :: rest => prefixOf pat (c :: rest) || subOf pat rest

/-- Python's substring test `pat in s`. -/
def inStr (pat s : String) : Bool := subOf pat.data s.data

/-- Python `s.startswith(pat)`. -/
def pyStartsWith (s pat : String) : Bool := prefixOf pat.data s.data

/-- An upstream exception: an opaque identity plus the text `str(e)`. -/
structure Err where
  id : Nat
  msg : String
deriving DecidableEq

/-- A chat message dict `{"role": role, "content": content}`. -/
structure Msg where
  role : String
  content : String
deriving DecidableEq

/-! ## Model router (`_is_anthropic_model`, `_get_endpoint_for_model`) -/

/-- `ProxyAPIClient._is_anthropic_model`:
`"claude" in model.lower() or "anthropic" in model.lower()`. -/
def is_anthropic_model (model : String) : Bool :=
  inStr "claude" (pyLower model) || inStr "anthropic" (pyLower model)

/-- `ProxyAPIClient._get_endpoint_for_model`. -/
def get_endpoint_for_model (model : String) : String :=
  if is_anthropic_model model then "https://api.proxyapi.ru/anthropic"
  else if pyStartsWith (pyLower model) "openai/" then "https://api.proxyapi.ru/openai/v1"
  else "https://api.proxyapi.ru/openrouter/v1"

/-! ## Message translation (`chat_completion`, lines 89–115)

The loop records the content of the last `system` message seen, keeps
`user`/`assistant` messages in order, silently drops every other role,
and finally — only when the recorded system content is truthy, i.e.
non-empty — inserts a `user` message `"System: " + content` at index 0. -/

/-- The `for msg in messages` loop of the translation (lines 92–108):
returns the kept `user`/`assistant` messages (appended to `acc` in
order) together with the last `system` content seen (starting from
`sys`). -/
def translateLoop : List Msg → Option String → List Msg → List Msg × Option String
  | [], sys, acc => (acc, sys)
  | m :: ms, sys, acc =>
    if m.role = "system" then translateLoop ms (some m.content) acc
    else if m.role = "user" ∨ m.role = "assistant" then translateLoop ms sys (acc ++ [m])
    else translateLoop ms sys acc

/-- The full OpenAI→Anthropic message translation (lines 89–115),
including the truthiness-guarded insertion of the `System: ` prefixed
user message (lines 111–115). -/
def to_anthropic_messages (messages : List Msg) : List Msg :=
  match translateLoop messages none [] with
  | (body, some c) => if c = "" then body else ⟨"user", "System: " ++ c⟩ :: body
  | (body, none) => body

/-! ## Streaming bridge (`chat_completion`, lines 126–184)

`_stream_anthropic` runs on a worker thread and communicates with the
consumer loop through `thread_queue_obj`.  A queue item is a text delta,
an `("error", e)` tuple, or the terminal `None`; the structure `Sig`
models the three shapes.  The outcome of the provider call on the worker
thread — the fragments emitted before returning or raising, plus the
exception if one was raised — is a `ProdRun`; `producerPuts` is the
exact sequence of `put` calls `_stream_anthropic` performs for that
outcome (fragments in emission order, then the error tuple if any, then
`None` from the `finally` block).

The consumer loop is driven by an arbitrary finite schedule of events:
`Ev.prod` (the worker performs its next pending `put`), `Ev.pop` (a
`get(timeout=0.1)` that returns the queue head, or times out on an empty
queue with the worker still alive), and `Ev.popDead` (a timed-out `get`
after which `thread.is_alive()` is observed false — only meaningful once
no `put` is pending — followed by the `get_nowait` drain loop).  When
the schedule is exhausted the model flushes: the worker finishes its
pending puts and the consumer keeps popping until it terminates, which
is how every real execution ends since the provider call terminates. -/

/-- One item of `thread_queue_obj`: a text delta, an `("error", e)`
tuple, or the terminal `None`. -/
inductive Sig where
  | data (s : String)
  | error (e : Err)
  | done
deriving DecidableEq

/-- The outcome of the provider call inside `_stream_anthropic`:
fragments emitted before completion or failure, and the exception
raised, if any. -/
structure ProdRun where
  frags : List String
  err : Option Err
deriving DecidableEq

/-- The error tuple and terminal `None` that `_stream_anthropic` pushes
after the fragments (lines 137–141). -/
def tailSig : Option Err → List Sig
  | some e => [Sig.error e, Sig.done]
  | none => [Sig.done]

/-- The exact sequence of `put` calls `_stream_anthropic` performs:
every fragment in emission order, then the error tuple when the call
raised, then `None` from the `finally` block — always last. -/
def producerPuts (r : ProdRun) : List Sig :=
  r.frags.map Sig.data ++ tailSig r.err

/-- A scheduler event for one interleaving of producer and consumer. -/
inductive Ev where
  | prod
  | pop
  | popDead
deriving DecidableEq

/-- How the consumer loop (lines 148–177) exits: a `break`, or an
exception propagating out of a `raise chunk[1]`. -/
inductive LoopExit where
  | normal
  | raised (e : Err)
deriving DecidableEq

/-- What the caller of the generator observes as the terminal condition
of the fragment sequence. -/
inductive Outcome where
  | ok
  | err (e : Err)
deriving DecidableEq

/-- The `get_nowait` drain loop (lines 167–176) over the buffered queue:
yields data items in order; on an `("error", e)` tuple the exception
exits the whole loop (`some (raised e)`); on `None` the inner `break`
returns control to the outer loop (`none`) with the rest of the queue;
on an empty queue the `Empty` branch breaks the outer loop
(`some normal`). -/
def drainStep : List Sig → List String → List String × Option LoopExit × List Sig
  | [], acc => (acc, some LoopExit.normal, [])
  | Sig.data f :: q, acc => drainStep q (acc ++ [f])
  | Sig.error e :: q, acc => (acc, some (LoopExit.raised e), q)
  | Sig.done :: q, acc => (acc, none, q)

/-- Consumer behaviour after the worker has terminated and the schedule
is exhausted: every remaining queue item is popped in FIFO order —
data is yielded, an error tuple raises, `None` breaks. -/
def flushRun : List Sig → List String → List String × LoopExit
  | [], acc => (acc, LoopExit.normal)
  | Sig.data f :: q, acc => flushRun q (acc ++ [f])
  | Sig.error e :: _, acc => (acc, LoopExit.raised e)
  | Sig.done :: _, acc => (acc, LoopExit.normal)

/-- The consumer loop (lines 148–177) against a schedule of events.
`pending` holds the producer's not-yet-performed puts, `queue` the FIFO
channel contents, `acc` the fragments yielded so far.  `Ev.popDead` with
pending puts is just a timed-out `get` (a live worker cannot be observed
dead before its `finally` has run), so the loop continues. -/
def bridgeLoop : List Ev → List Sig → List Sig → List String → List String × LoopExit
  | [], pending, queue, acc => flushRun (queue ++ pending) acc
  | Ev.prod :: evs, pending, queue, acc =>
    match pending with
    | [] => bridgeLoop evs [] queue acc
    | p :: ps => bridgeLoop evs ps (queue ++ [p]) acc
  | Ev.pop :: evs, pending, queue, acc =>
    match queue with
    | [] => bridgeLoop evs pending [] acc
    | Sig.data f :: q => bridgeLoop evs pending q (acc ++ [f])
    | Sig.error e :: _ => (acc, LoopExit.raised e)
    | Sig.done :: _ => (acc, LoopExit.normal)
  | Ev.popDead :: evs, pending, queue, acc =>
    match pending with
    | _ :: _ => bridgeLoop evs pending queue acc
    | [] =>
      match drainStep queue acc with
      | (acc2, some ex, _) => (acc2, ex)
      | (acc2, none, q2) => bridgeLoop evs [] q2 acc2

/-- The `finally` block (lines 178–184): after joining the worker,
`stream_error[0]` — the producer's exception, if any — is re-raised,
replacing a normal exit and also any exception already propagating
(the in-flight exception is the same object, pushed as the error
tuple). -/
def finalize (perr : Option Err) : LoopExit → Outcome
  | LoopExit.normal => match perr with | some e => Outcome.err e | none => Outcome.ok
  | LoopExit.raised e => match perr with | some e2 => Outcome.err e2 | none => Outcome.err e

/-- The full streaming bridge for one producer outcome and one
interleaving: the fragments the consumer yields and the terminal
condition its caller observes. -/
def bridgeRun (r : ProdRun) (sched : List Ev) : List String × Outcome :=
  match bridgeLoop sched (producerPuts r) [] [] with
  | (ys, ex) => (ys, finalize r.err ex)

/-- The terminal condition the spec assigns to a producer outcome. -/
def expectedOutcome : Option Err → Outcome
  | some e => Outcome.err e
  | none => Outcome.ok

/-- The loop exit matching a producer outcome. -/
def exitOf : Option Err → LoopExit
  | some e => LoopExit.raised e
  | none => LoopExit.normal


/-! ## Completion façade (`chat_completion`, `get_completion`)

The network is an oracle `Upstream`: a deterministic map from the exact
keyword arguments the client builds to the upstream behaviour.  A
generator call is modelled by the fragments it yields, the error that
terminates the iteration (if any), and — instrumentation for the
fallback protocol — the list of model-name variants attempted, in
order (`CCResult.tried`, empty when the fallback never ran). -/

/-- Python `max_tokens or 4000` (lines 119, 264): `None` and `0` are
falsy, so both default to 4000. -/
def maxTokensOr4000 : Option Nat → Nat
  | some n => if n = 0 then 4000 else n
  | none => 4000

/-- Python `if max_tokens: kwargs["max_tokens"] = max_tokens`
(lines 204–205): the field is included only when truthy. -/
def maxTokensIfTruthy : Option Nat → Option Nat
  | some n => if n = 0 then none else some n
  | none => none

/-- The keyword arguments of an Anthropic `messages.stream` /
`messages.create` call (lines 117–124, 262–268). -/
structure AnthropicKwargs where
  model : String
  max_tokens : Nat
  messages : List Msg
  temperature : Option Rat

/-- The keyword arguments of an OpenAI-compatible
`chat.completions.create` call (lines 198–205). -/
structure OpenAIKwargs where
  model : String
  messages : List Msg
  temperature : Option Rat
  max_tokens : Option Nat

/-- Outcome of iterating an OpenAI-compatible streaming response: the
`delta.content` field of each chunk in order (possibly null), plus the
exception that ended the iteration, if any. -/
structure OpenAIStreamRun where
  chunks : List (Option String)
  err : Option Err

/-- The upstream oracle: what each provider call does, as a
deterministic function of the exact arguments the client sends. -/
structure Upstream where
  anthropicStream : AnthropicKwargs → ProdRun
  anthropicCreate : AnthropicKwargs → Except Err String
  openaiStream : OpenAIKwargs → OpenAIStreamRun
  openaiCreate : OpenAIKwargs → Except Err (Option String)

/-- One Anthropic attempt: either the streaming bridge (whose yielded
fragments and surfaced error are exactly the producer outcome, by
`bridgeRun_correct`) or the single-shot `messages.create` in an
executor, which yields one fragment holding the full text
(lines 127–192, 272–323). -/
def runAnthropic (up : Upstream) (stream : Bool) (k : AnthropicKwargs) :
    List String × Option Err :=
  if stream then
    ((up.anthropicStream k).frags, (up.anthropicStream k).err)
  else
    match up.anthropicCreate k with
    | Except.ok text => ([text], none)
    | Except.error e => ([], some e)

/-- `if chunk.choices[0].delta.content: yield ...` (lines 212–214):
null or empty delta contents are skipped. -/
def filterChunks (cs : List (Option String)) : List String :=
  cs.filterMap fun c =>
    match c with
    | some s => if s = "" then none else some s
    | none => none

/-- The body of the outer `try` of `chat_completion` (lines 83–217):
the Anthropic branch with translated messages, or the OpenAI-compatible
branch with messages passed through; returns the fragments yielded
before the branch finished or raised, and the raised error if any. -/
def primaryRun (up : Upstream) (model : String) (messages : List Msg)
    (temperature : Option Rat) (max_tokens : Option Nat) (stream : Bool) :
    List String × Option Err :=
  if is_anthropic_model model then
    runAnthropic up stream
      ⟨model, maxTokensOr4000 max_tokens, to_anthropic_messages messages, temperature⟩
  else
    if stream then
      (filterChunks (up.openaiStream ⟨model, messages, temperature,
          maxTokensIfTruthy max_tokens⟩).chunks,
        (up.openaiStream ⟨model, messages, temperature, maxTokensIfTruthy max_tokens⟩).err)
    else
      match up.openaiCreate ⟨model, messages, temperature, maxTokensIfTruthy max_tokens⟩ with
      | Except.ok c => ([c.getD ""], none)
      | Except.error e => ([], some e)

/-- The hardcoded fallback candidate list `model_variants`
(lines 234–239): the requested model first, then three fixed
identifiers. -/
def model_variants (model : String) : List String :=
  [model, "claude-opus-4-5-20251101", "claude-3-opus-20240229",
    "claude-3-5-sonnet-20241022"]

/-- The `for variant in model_variants` loop (lines 260–327): each
candidate runs the same streaming-or-single-shot path inside
`try ... except Exception: continue`, so fragments already yielded by a
candidate that later raises stay delivered; the first candidate that
finishes without raising ends the generator (`return`).  Returns the
fragments yielded by the fallback, the success flag, and the candidates
attempted, in order. -/
def fallbackLoop (up : Upstream) (stream : Bool) (am : List Msg)
    (temperature : Option Rat) (mt : Nat) :
    List String → List String → List String → List String × Bool × List String
  | [], acc, tried => (acc, false, tried)
  | v :: vs, acc, tried =>
    match runAnthropic up stream ⟨v, mt, am, temperature⟩ with
    | (fs, none) => (acc ++ fs, true, tried ++ [v])
    | (fs, some _) => fallbackLoop up stream am temperature mt vs (acc ++ fs) (tried ++ [v])

/-- Observable behaviour of one `chat_completion` generator call: the
fragments yielded in order, the error terminating the iteration (if
any), and the fallback candidates attempted (empty when the fallback
protocol never ran). -/
structure CCResult where
  frags : List String
  err : Option Err
  tried : List String
deriving DecidableEq

/-- `ProxyAPIClient.chat_completion` (lines 62–344).  After a primary
failure, the `except` clause (lines 219–344) runs the fallback protocol
only for an Anthropic-classified model whose error message contains
`"403"` or `"404"`.  On fallback success the generator returns
(line 325).  On exhaustion, the raised
`Exception("Не удалось найти подходящий формат модели")` (line 329) is
caught by `except Exception as retry_error` (line 330) and only
printed; the bare `raise` (line 344) then re-raises the *original*
exception being handled, so the caller receives the primary error. -/
def chat_completion (up : Upstream) (model : String) (messages : List Msg)
    (temperature : Option Rat) (max_tokens : Option Nat) (stream : Bool) : CCResult :=
  match primaryRun up model messages temperature max_tokens stream with
  | (fs, none) => ⟨fs, none, []⟩
  | (fs, some e) =>
    if is_anthropic_model model && (inStr "403" e.msg || inStr "404" e.msg) then
      match fallbackLoop up stream (to_anthropic_messages messages) temperature
          (maxTokensOr4000 max_tokens) (model_variants model) [] [] with
      | (fb, true, tried) => ⟨fs ++ fb, none, tried⟩
      | (fb, false, tried) => ⟨fs ++ fb, some e, tried⟩
    else ⟨fs, some e, []⟩

/-- The accumulation loop of `get_completion` (lines 354–362):
`content = ""`, then `content += chunk` per yielded chunk. -/
def accumLoop : List String → String → String
  | [], acc => acc
  | f :: fs, acc => accumLoop fs (acc ++ f)

/-- `ProxyAPIClient.get_completion` (lines 346–363): consumes the
non-streaming `chat_completion` generator, concatenating chunks; an
error raised by the stream propagates and the partial content is
discarded. -/
def get_completion (up : Upstream) (model : String) (messages : List Msg)
    (temperature : Option Rat) (max_tokens : Option Nat) : Except Err String :=
  match chat_completion up model messages temperature max_tokens false with
  | ⟨_, some e, _⟩ => Except.error e
  | ⟨fs, none, _⟩ => Except.ok (accumLoop fs "")

/-! ## Concrete oracles used by witnesses and counterexamples -/

/-- Oracle where the requested Anthropic model streams one fragment and
then fails with a 403, the first hardcoded fallback identifier
succeeds, and later candidates would fail. -/
def oracleSecondWins : Upstream where
  anthropicStream := fun k =>
    if k.model = "claude-orig" then ⟨["x"], some ⟨1, "status 403"⟩⟩
    else if k.model = "claude-opus-4-5-20251101" then ⟨["y"], none⟩
    else ⟨["z"], some ⟨2, "status 500"⟩⟩
  anthropicCreate := fun _ => Except.error ⟨3, "unused"⟩
  openaiStream := fun _ => ⟨[], none⟩
  openaiCreate := fun _ => Except.error ⟨3, "unused"⟩

/-- Oracle where every Anthropic attempt fails with a 404-class error. -/
def oracleAllFail : Upstream where
  anthropicStream := fun _ => ⟨[], some ⟨9, "model 404"⟩⟩
  anthropicCreate := fun _ => Except.error ⟨9, "model 404"⟩
  openaiStream := fun _ => ⟨[], none⟩
  openaiCreate := fun _ => Except.error ⟨9, "model 404"⟩

/-- Oracle where the OpenAI-compatible provider denies access with a
403. -/
def oracleRelay403 : Upstream where
  anthropicStream := fun _ => ⟨[], none⟩
  anthropicCreate := fun _ => Except.ok ""
  openaiStream := fun _ => ⟨[], some ⟨4, "http 403"⟩⟩
  openaiCreate := fun _ => Except.error ⟨4, "http 403"⟩

/-- Oracle where the OpenAI-compatible non-streaming response carries a
null message content. -/
def oracleNullContent : Upstream where
  anthropicStream := fun _ => ⟨[], none⟩
  anthropicCreate := fun _ => Except.ok ""
  openaiStream := fun _ => ⟨[], none⟩
  openaiCreate := fun _ => Except.ok none

/-! ## Helper lemmas about the string functions -/

theorem prefixOf_iff (p : List Char) :
    ∀ s, prefixOf p s = true ↔ ∃ t, p ++ t = s := by
  induction p with
  | nil =>
    intro s
    simp [prefixOf]
  | cons a as ih =>
    intro s
    cases s with
    | nil => simp [prefixOf]
    | cons b bs =>
      simp only [prefixOf, Bool.and_eq_true, beq_iff_eq, ih]
      constructor
      · rintro ⟨rfl, t, rfl⟩
        exact ⟨t, rfl⟩
      · rintro ⟨t, h⟩
        cases h
        exact ⟨rfl, t, rfl⟩

theorem subOf_iff (p : List Char) :
    ∀ s, subOf p s = true ↔ ∃ a b, a ++ p ++ b = s := by
  intro s
  induction s with
  | nil =>
    simp only [subOf, List.isEmpty_iff]
    constructor
    · rintro rfl
      exact ⟨[], [], rfl⟩
    · rintro ⟨a, b, h⟩
      have := congrArg List.length h
      simp at this
      exact this.2.1
  | cons c rest ih =>
    simp only [subOf, Bool.or_eq_true, prefixOf_iff, ih]
    constructor
    · rintro (⟨t, h⟩ | ⟨a, b, h⟩)
      · exact ⟨[], t, by simpa using h⟩
      · exact ⟨c :: a, b, by simp [← h]⟩
    · rintro ⟨a, b, h⟩
      cases a with
      | nil => exact Or.inl ⟨b, by simpa using h⟩
      | cons x xs =>
        right
        refine ⟨xs, b, ?_⟩
        have h' := h
        rw [List.cons_append, List.cons_append] at h'
        exact (List.cons.injEq _ _ _ _).mp h' |>.2

/-! ## Claim C7: router totality and first-match classification -/

/-- C7: classification of model identifiers is total and first-match-wins:
a string containing `"claude"` or `"anthropic"` in any case is an
Anthropic (NativeAlt) model and maps to the native endpoint; otherwise a
string whose lowercase starts with `"openai/"` maps to the OpenAI
endpoint; every other string maps to the OpenRouter endpoint. -/
theorem classification_total_first_match (model : String) :
    (is_anthropic_model model = true ↔
      ((∃ a b, a ++ "claude".data ++ b = (pyLower model).data) ∨
       (∃ a b, a ++ "anthropic".data ++ b = (pyLower model).data))) ∧
    (get_endpoint_for_model model = "https://api.proxyapi.ru/anthropic" ↔
      is_anthropic_model model = true) ∧
    (get_endpoint_for_model model = "https://api.proxyapi.ru/openai/v1" ↔
      (is_anthropic_model model = false ∧ pyStartsWith (pyLower model) "openai/" = true)) ∧
    (get_endpoint_for_model model = "https://api.proxyapi.ru/openrouter/v1" ↔
      (is_anthropic_model model = false ∧ pyStartsWith (pyLower model) "openai/" = false)) := by
  refine ⟨?_, ?_, ?_, ?_⟩
  · simp [is_anthropic_model, inStr, subOf_iff]
  all_goals
    cases h1 : is_anthropic_model model <;>
      cases h2 : pyStartsWith (pyLower model) "openai/" <;>
        simp [get_endpoint_for_model, h1, h2]

/-! ## Claims C8 and C9: the message translation -/

theorem translateLoop_clean (rest : List Msg)
    (h : ∀ m ∈ rest, m.role = "user" ∨ m.role = "assistant") :
    ∀ sys acc, translateLoop rest sys acc = (acc ++ rest, sys) := by
  induction rest with
  | nil => intro sys acc; simp [translateLoop]
  | cons m ms ih =>
    intro sys acc
    have hm := h m (List.mem_cons_self ..)
    have hms : ∀ x ∈ ms, x.role = "user" ∨ x.role = "assistant" :=
      fun x hx => h x (List.mem_cons_of_mem _ hx)
    have hsys : ¬ m.role = "system" := by
      rcases hm with h' | h' <;> rw [h'] <;> decide
    simp [translateLoop, hsys, hm, ih hms]

/-- C8: a message list starting with one non-empty `system` message and
otherwise containing only `user`/`assistant` messages translates to the
same list with the system message removed and a `user` message
`"System: " + content` inserted at index 0; length is preserved. -/
theorem translate_single_system_first (X : String) (rest : List Msg)
    (hX : X ≠ "")
    (h : ∀ m ∈ rest, m.role = "user" ∨ m.role = "assistant") :
    to_anthropic_messages (⟨"system", X⟩ :: rest)
      = ⟨"user", "System: " ++ X⟩ :: rest ∧
    (to_anthropic_messages (⟨"system", X⟩ :: rest)).length
      = (⟨"system", X⟩ :: rest : List Msg).length := by
  have hloop : translateLoop (⟨"system", X⟩ :: rest) none [] = (rest, some X) := by
    simp [translateLoop, translateLoop_clean rest h]
  refine ⟨?_, ?_⟩ <;> simp [to_anthropic_messages, hloop, hX]

/-- Witness for C8 at a concrete request. -/
theorem translate_single_system_first_witness :
    to_anthropic_messages [⟨"system", "X"⟩, ⟨"user", "Y"⟩]
      = [⟨"user", "System: X"⟩, ⟨"user", "Y"⟩] :=
  (translate_single_system_first "X" [⟨"user", "Y"⟩] (by decide) (by decide)).1

theorem translateLoop_skip (r c : String)
    (h1 : r ≠ "system") (h2 : r ≠ "user") (h3 : r ≠ "assistant") :
    ∀ xs ys sys acc,
      translateLoop (xs ++ ⟨r, c⟩ :: ys) sys acc = translateLoop (xs ++ ys) sys acc := by
  intro xs
  induction xs with
  | nil => intro ys sys acc; simp [translateLoop, h1, h2, h3]
  | cons m ms ih =>
    intro ys sys acc
    simp only [List.cons_append, translateLoop]
    by_cases hs : m.role = "system"
    · simp [hs, ih]
    · by_cases hu : m.role = "user" ∨ m.role = "assistant" <;> simp [hs, hu, ih]

/-- C9: (a) a `system` message with empty content is dropped without
inserting a `System: `-prefixed user message (truthiness guard); (b) a
message whose role is outside `{system, user, assistant}` is silently
dropped from the translated list. -/
theorem translate_drops_empty_system_and_unknown_roles :
    (∀ rest : List Msg, (∀ m ∈ rest, m.role = "user" ∨ m.role = "assistant") →
      to_anthropic_messages (⟨"system", ""⟩ :: rest) = rest) ∧
    (∀ (xs ys : List Msg) (r c : String),
      r ≠ "system" → r ≠ "user" → r ≠ "assistant" →
      to_anthropic_messages (xs ++ ⟨r, c⟩ :: ys) = to_anthropic_messages (xs ++ ys)) := by
  constructor
  · intro rest h
    have hloop : translateLoop (⟨"system", ""⟩ :: rest) none [] = (rest, some "") := by
      simp [translateLoop, translateLoop_clean rest h]
    simp [to_anthropic_messages, hloop]
  · intro xs ys r c h1 h2 h3
    unfold to_anthropic_messages
    rw [translateLoop_skip r c h1 h2 h3 xs ys none []]

/-- Witness for C9 at concrete message lists. -/
theorem translate_drops_witness :
    to_anthropic_messages [⟨"system", ""⟩, ⟨"user", "Y"⟩] = [⟨"user", "Y"⟩] ∧
    to_anthropic_messages [⟨"user", "A"⟩, ⟨"tool", "Z"⟩]
      = to_anthropic_messages [⟨"user", "A"⟩] :=
  ⟨translate_drops_empty_system_and_unknown_roles.1 [⟨"user", "Y"⟩] (by decide),
   translate_drops_empty_system_and_unknown_roles.2 [⟨"user", "A"⟩] [] "tool" "Z"
     (by decide) (by decide) (by decide)⟩


/-! ## Bridge correctness -/

theorem flushRun_spec (errOpt : Option Err) :
    ∀ (rest acc : List String),
      flushRun (rest.map Sig.data ++ tailSig errOpt) acc = (acc ++ rest, exitOf errOpt) := by
  intro rest
  induction rest with
  | nil =>
    intro acc
    cases errOpt <;> simp [flushRun, tailSig, exitOf]
  | cons f fs ih =>
    intro acc
    have step : flushRun ((f :: fs).map Sig.data ++ tailSig errOpt) acc
        = flushRun (fs.map Sig.data ++ tailSig errOpt) (acc ++ [f]) := rfl
    rw [step, ih]
    simp

theorem drainStep_spec (errOpt : Option Err) :
    ∀ (rest acc : List String),
      drainStep (rest.map Sig.data ++ tailSig errOpt) acc =
        (acc ++ rest,
          match errOpt with
          | some e => (some (LoopExit.raised e), [Sig.done])
          | none => (none, [])) := by
  intro rest
  induction rest with
  | nil =>
    intro acc
    cases errOpt <;> simp [drainStep, tailSig]
  | cons f fs ih =>
    intro acc
    have step : drainStep ((f :: fs).map Sig.data ++ tailSig errOpt) acc
        = drainStep (fs.map Sig.data ++ tailSig errOpt) (acc ++ [f]) := rfl
    rw [step, ih]
    simp

/-- Once everything the producer put has been consumed, the loop can
only go on timing out and draining an empty queue until it breaks. -/
theorem bridgeLoop_post_done :
    ∀ (evs : List Ev) (acc : List String),
      bridgeLoop evs [] [] acc = (acc, LoopExit.normal) := by
  intro evs
  induction evs with
  | nil => intro acc; simp [bridgeLoop, flushRun]
  | cons ev evs ih =>
    intro acc
    cases ev <;> simp [bridgeLoop, drainStep, ih]

/-- Invariant: whenever the yielded prefix is `acc` and the channel plus
the producer's pending puts hold exactly the rest of the data followed
by the terminal signals, the loop yields the rest in order and exits as
the producer outcome dictates — on every schedule. -/
theorem bridgeLoop_inv (errOpt : Option Err) :
    ∀ (evs : List Ev) (rest : List String) (pending queue : List Sig) (acc : List String),
      queue ++ pending = rest.map Sig.data ++ tailSig errOpt →
      bridgeLoop evs pending queue acc = (acc ++ rest, exitOf errOpt) := by
  intro evs
  induction evs with
  | nil =>
    intro rest pending queue acc h
    simp [bridgeLoop, h, flushRun_spec]
  | cons ev evs ih =>
    intro rest pending queue acc h
    cases ev with
    | prod =>
      cases pending with
      | nil => exact ih rest [] queue acc (by simpa using h)
      | cons p ps =>
        have h2 : (queue ++ [p]) ++ ps = rest.map Sig.data ++ tailSig errOpt := by
          rw [List.append_assoc]
          simpa using h
        have hrec := ih rest ps (queue ++ [p]) acc h2
        simpa [bridgeLoop] using hrec
    | pop =>
      cases queue with
      | nil =>
        have hrec := ih rest pending [] acc (by simpa using h)
        simpa [bridgeLoop] using hrec
      | cons s q =>
        cases rest with
        | cons f fs =>
          have h' : s :: (q ++ pending)
              = Sig.data f :: (fs.map Sig.data ++ tailSig errOpt) := h
          injection h' with h1 h2
          subst h1
          have hrec := ih fs pending q (acc ++ [f]) h2
          simp [bridgeLoop, hrec]
        | nil =>
          cases errOpt with
          | some e =>
            have h' : s :: (q ++ pending) = [Sig.error e, Sig.done] := h
            injection h' with h1 h2
            subst h1
            simp [bridgeLoop, exitOf]
          | none =>
            have h' : s :: (q ++ pending) = [Sig.done] := h
            injection h' with h1 h2
            subst h1
            simp [bridgeLoop, exitOf]
    | popDead =>
      cases pending with
      | cons p ps => simpa [bridgeLoop] using ih rest (p :: ps) queue acc h
      | nil =>
        have hq : queue = rest.map Sig.data ++ tailSig errOpt := by simpa using h
        subst hq
        cases errOpt with
        | some e => simp [bridgeLoop, drainStep_spec, exitOf]
        | none => simp [bridgeLoop, drainStep_spec, bridgeLoop_post_done, exitOf]

/-- The bridge, on every interleaving, yields exactly the fragments the
provider emitted, in order, and surfaces exactly the producer outcome. -/
theorem bridgeRun_correct (r : ProdRun) (sched : List Ev) :
    bridgeRun r sched = (r.frags, expectedOutcome r.err) := by
  have h := bridgeLoop_inv r.err sched r.frags (producerPuts r) [] []
    (by simp [producerPuts])
  simp only [bridgeRun, h]
  cases hr : r.err <;> simp [finalize, exitOf, expectedOutcome]

/-- The streaming branch of `runAnthropic` agrees with the bridge model
on every interleaving: using the producer outcome directly in the
façade model is sound. -/
theorem runAnthropic_stream_eq_bridge (up : Upstream) (k : AnthropicKwargs) (sched : List Ev) :
    bridgeRun (up.anthropicStream k) sched =
      ((runAnthropic up true k).1, expectedOutcome (runAnthropic up true k).2) := by
  rw [bridgeRun_correct]
  simp [runAnthropic]

/-! ## Claim C1: exactly one terminal condition, `Done` always last -/

/-- C1: for every producer outcome (success, error after some fragments,
or error before the first fragment) the producer pushes the terminal
`None` as its last queue action — exactly once — and on every
interleaving the consumer of `chat_completion` observes exactly one
terminal condition: normal end when the provider call succeeded, a
single raised error when it raised (never zero, never two: `bridgeRun`
is total and its outcome component is the single terminal the caller
sees). -/
theorem stream_terminal_exactly_once (r : ProdRun) (sched : List Ev) :
    (∃ pre, producerPuts r = pre ++ [Sig.done] ∧ Sig.done ∉ pre) ∧
    (producerPuts r).count Sig.done = 1 ∧
    bridgeRun r sched = (r.frags, expectedOutcome r.err) := by
  have hnd : Sig.done ∉ r.frags.map Sig.data := by
    intro hmem
    rcases List.mem_map.mp hmem with ⟨s, -, hs⟩
    exact Sig.noConfusion hs
  refine ⟨?_, ?_, bridgeRun_correct r sched⟩
  · cases hr : r.err with
    | none =>
      refine ⟨r.frags.map Sig.data, by simp [producerPuts, tailSig, hr], hnd⟩
    | some e =>
      refine ⟨r.frags.map Sig.data ++ [Sig.error e],
        by simp [producerPuts, tailSig, hr], ?_⟩
      intro hmem
      rcases List.mem_append.mp hmem with hm | hm
      · exact hnd hm
      · simp at hm
  · cases hr : r.err <;>
      simp [producerPuts, tailSig, hr, List.count_append, List.count_eq_zero.mpr hnd]

/-! ## Claim C2: errors surface after all prior fragments; drain races
lose nothing -/

/-- C2: a producer-side exception is always re-raised to the consumer,
and only after every fragment emitted before the failure point has been
yielded, in emission order — on every interleaving, including those
where a timed-out pop sees the producer dead and must drain buffered
items (`Ev.popDead`), so no fragment is lost to the producer-exit/drain
race. -/
theorem stream_error_after_all_fragments (r : ProdRun) (sched : List Ev) (e : Err)
    (herr : r.err = some e) :
    bridgeRun r sched = (r.frags, Outcome.err e) := by
  have h := bridgeRun_correct r sched
  rw [herr] at h
  exact h

/-- Witness for C2: two fragments then a failure, on a schedule whose
last pop finds the queue empty, the producer dead, and three buffered
items to drain. -/
theorem stream_error_after_all_fragments_witness :
    bridgeRun ⟨["a", "b"], some ⟨7, "boom"⟩⟩
      [Ev.prod, Ev.pop, Ev.prod, Ev.prod, Ev.prod, Ev.popDead]
      = (["a", "b"], Outcome.err ⟨7, "boom"⟩) :=
  stream_error_after_all_fragments ⟨["a", "b"], some ⟨7, "boom"⟩⟩
    [Ev.prod, Ev.pop, Ev.prod, Ev.prod, Ev.prod, Ev.popDead] ⟨7, "boom"⟩ rfl

/-! ## Aggregation -/

theorem accumLoop_eq_foldl : ∀ (fs : List String) (acc : String),
    accumLoop fs acc = List.foldl (fun r s => r ++ s) acc fs := by
  intro fs
  induction fs with
  | nil => intro acc; rfl
  | cons f fs ih => intro acc; simp [accumLoop, List.foldl, ih]

theorem accumLoop_join : ∀ (fs : List String) (acc : String),
    accumLoop fs acc = acc ++ String.join fs := by
  intro fs
  induction fs with
  | nil =>
    intro acc
    simp [accumLoop, String.join]
  | cons f fs ih =>
    intro acc
    have hj : String.join (f :: fs) = f ++ String.join fs := by
      have h1 : String.join (f :: fs) = accumLoop fs f := by
        rw [accumLoop_eq_foldl]
        simp [String.join]
      rw [h1, ih f]
    have step : accumLoop (f :: fs) acc = accumLoop fs (acc ++ f) := rfl
    rw [step, ih (acc ++ f), hj, String.append_assoc]

/-! ## Claim C3: `get_completion` aggregates the non-streaming stream -/

/-- C3: `get_completion` returns exactly the left-to-right
concatenation, with no separator and in yield order, of the fragments
that `chat_completion` yields on the same arguments with
`stream=False`, and propagates unchanged any error that
`chat_completion` raises. -/
theorem get_completion_concat (up : Upstream) (model : String) (messages : List Msg)
    (temperature : Option Rat) (max_tokens : Option Nat) :
    get_completion up model messages temperature max_tokens =
      match chat_completion up model messages temperature max_tokens false with
      | ⟨fs, none, _⟩ => Except.ok (String.join fs)
      | ⟨_, some e, _⟩ => Except.error e := by
  unfold get_completion
  cases h : chat_completion up model messages temperature max_tokens false with
  | mk fs err tried => cases err <;> simp [accumLoop_join]

/-! ## Fallback protocol lemmas -/

theorem fallbackLoop_all_fail (up : Upstream) (stream : Bool) (am : List Msg)
    (temperature : Option Rat) (mt : Nat) :
    ∀ (vs acc tried : List String),
      (∀ v ∈ vs, (runAnthropic up stream ⟨v, mt, am, temperature⟩).2 ≠ none) →
      ∃ junk, fallbackLoop up stream am temperature mt vs acc tried
        = (acc ++ junk, false, tried ++ vs) := by
  intro vs
  induction vs with
  | nil =>
    intro acc tried _
    exact ⟨[], by simp [fallbackLoop]⟩
  | cons v vs ih =>
    intro acc tried h
    have hv := h v (List.mem_cons_self ..)
    have hvs : ∀ x ∈ vs, (runAnthropic up stream ⟨x, mt, am, temperature⟩).2 ≠ none :=
      fun x hx => h x (List.mem_cons_of_mem _ hx)
    rcases hr : runAnthropic up stream ⟨v, mt, am, temperature⟩ with ⟨fs, err⟩
    cases err with
    | none => exact absurd (by rw [hr]) hv
    | some e =>
      rcases ih (acc ++ fs) (tried ++ [v]) hvs with ⟨junk, hj⟩
      exact ⟨fs ++ junk, by simp [fallbackLoop, hr, hj]⟩

/-! ## Claim C4: fallback order and short-circuit -/

/-- C4 counterexample: when the fallback is triggered by a mid-stream
403 failure of the primary attempt and the second candidate succeeds,
the consumer receives the primary attempt's partial fragment, the first
candidate's partial fragment, and then the winner's fragments — not
only the winner's fragments as the claim states.  (The `tried`
component confirms that the third and fourth candidates are never
attempted.) -/
theorem fallback_only_winner_counterexample :
    (chat_completion oracleSecondWins "claude-orig" [⟨"user", "hi"⟩] none none true).frags
        = ["x", "x", "y"] ∧
    (chat_completion oracleSecondWins "claude-orig" [⟨"user", "hi"⟩] none none true).tried
        = ["claude-orig", "claude-opus-4-5-20251101"] ∧
    (["x", "x", "y"] : List String) ≠ ["y"] :=
  ⟨by decide, by decide, by decide⟩

/-- C4 (amended): candidates are attempted in the fixed order of
`model_variants` (requested model first, then the three fixed
identifiers); the first candidate that completes without throwing wins
and all remaining candidates are skipped — here the second candidate
wins, the third and fourth are never attempted — but the winner's
fragments are yielded *after* any fragments already yielded by the
primary attempt and by earlier failing candidates' partial streams,
not alone. -/
theorem fallback_first_success (up : Upstream) (model : String) (messages : List Msg)
    (temperature : Option Rat) (max_tokens : Option Nat) (stream : Bool)
    (pf w : List String) (e : Err)
    (hanth : is_anthropic_model model = true)
    (hprim : runAnthropic up stream
      ⟨model, maxTokensOr4000 max_tokens, to_anthropic_messages messages, temperature⟩
      = (pf, some e))
    (h403 : inStr "403" e.msg = true ∨ inStr "404" e.msg = true)
    (hwin : runAnthropic up stream
      ⟨"claude-opus-4-5-20251101", maxTokensOr4000 max_tokens,
        to_anthropic_messages messages, temperature⟩ = (w, none)) :
    chat_completion up model messages temperature max_tokens stream
      = ⟨pf ++ (pf ++ w), none, [model, "claude-opus-4-5-20251101"]⟩ := by
  have hpr : primaryRun up model messages temperature max_tokens stream = (pf, some e) := by
    simp [primaryRun, hanth, hprim]
  have hguard :
      (is_anthropic_model model && (inStr "403" e.msg || inStr "404" e.msg)) = true := by
    rcases h403 with h | h <;> simp [hanth, h]
  have hfb : fallbackLoop up stream (to_anthropic_messages messages) temperature
      (maxTokensOr4000 max_tokens) (model_variants model) [] []
      = (pf ++ w, true, [model, "claude-opus-4-5-20251101"]) := by
    simp [fallbackLoop, model_variants, hprim, hwin]
  simp [chat_completion, hpr, hguard, hfb]

/-- Witness for the amended C4 at a concrete oracle. -/
theorem fallback_first_success_witness :
    chat_completion oracleSecondWins "claude-orig" [⟨"user", "hi"⟩] none none true
      = ⟨["x", "x", "y"], none, ["claude-orig", "claude-opus-4-5-20251101"]⟩ := by
  have h := fallback_first_success oracleSecondWins "claude-orig" [⟨"user", "hi"⟩]
    none none true ["x"] ["y"] ⟨1, "status 403"⟩
    (by decide) (by decide) (Or.inl (by decide)) (by decide)
  simpa using h

/-! ## Claim C5: behaviour on fallback exhaustion -/

/-- C5 counterexample: with every candidate failing, the error the
caller of `chat_completion` receives is the original primary-attempt
error (`"model 404"`), not the `"no compatible model variant"`
exhaustion error: the `Exception("Не удалось найти подходящий формат
модели")` of line 329 is caught by line 330 and only printed, and the
bare `raise` of line 344 re-raises the original exception. -/
theorem fallback_exhaustion_counterexample :
    (chat_completion oracleAllFail "claude-m" [⟨"user", "hi"⟩] none none true).err
        = some ⟨9, "model 404"⟩ ∧
    (chat_completion oracleAllFail "claude-m" [⟨"user", "hi"⟩] none none true).tried
        = model_variants "claude-m" ∧
    "model 404" ≠ "Не удалось найти подходящий формат модели" :=
  ⟨by decide, by decide, by decide⟩

/-- C5 (amended): if the fallback is triggered and every candidate in
`model_variants` fails, `chat_completion` re-raises the original
primary-attempt error to its caller (the internal exhaustion error is
caught and only reported to the console); all four candidates are
attempted. -/
theorem fallback_exhaustion_reraises_original (up : Upstream) (model : String)
    (messages : List Msg) (temperature : Option Rat) (max_tokens : Option Nat)
    (stream : Bool) (pf : List String) (e : Err)
    (hanth : is_anthropic_model model = true)
    (hprim : runAnthropic up stream
      ⟨model, maxTokensOr4000 max_tokens, to_anthropic_messages messages, temperature⟩
      = (pf, some e))
    (h403 : inStr "403" e.msg = true ∨ inStr "404" e.msg = true)
    (hall : ∀ v ∈ model_variants model,
      (runAnthropic up stream ⟨v, maxTokensOr4000 max_tokens,
        to_anthropic_messages messages, temperature⟩).2 ≠ none) :
    (chat_completion up model messages temperature max_tokens stream).err = some e ∧
    (chat_completion up model messages temperature max_tokens stream).tried
      = model_variants model := by
  have hpr : primaryRun up model messages temperature max_tokens stream = (pf, some e) := by
    simp [primaryRun, hanth, hprim]
  have hguard :
      (is_anthropic_model model && (inStr "403" e.msg || inStr "404" e.msg)) = true := by
    rcases h403 with h | h <;> simp [hanth, h]
  rcases fallbackLoop_all_fail up stream (to_anthropic_messages messages) temperature
      (maxTokensOr4000 max_tokens) (model_variants model) [] [] hall with ⟨junk, hj⟩
  constructor <;> simp [chat_completion, hpr, hguard, hj]

/-- Witness for the amended C5 at a concrete oracle. -/
theorem fallback_exhaustion_reraises_original_witness :
    (chat_completion oracleAllFail "claude-m" [⟨"user", "hi"⟩] none none true).err
        = some ⟨9, "model 404"⟩ ∧
    (chat_completion oracleAllFail "claude-m" [⟨"user", "hi"⟩] none none true).tried
      = model_variants "claude-m" :=
  fallback_exhaustion_reraises_original oracleAllFail "claude-m" [⟨"user", "hi"⟩]
    none none true [] ⟨9, "model 404"⟩ (by decide) (by decide)
    (Or.inr (by decide)) (by decide)

/-! ## Claim C6: no fallback outside NativeAlt ∧ 403/404 -/

/-- C6: when the failing model does not classify as Anthropic
(NativeAlt), or when the error message contains neither a `"403"` nor a
`"404"` indicator, the fallback protocol is never invoked (no candidate
is attempted) and the original exception is re-raised to the caller
unchanged, after the fragments already yielded. -/
theorem no_fallback_outside_nativealt_or_403 (up : Upstream) (model : String)
    (messages : List Msg) (temperature : Option Rat) (max_tokens : Option Nat)
    (stream : Bool) (pf : List String) (e : Err)
    (hprim : primaryRun up model messages temperature max_tokens stream = (pf, some e))
    (hcase : is_anthropic_model model = false ∨
      (inStr "403" e.msg = false ∧ inStr "404" e.msg = false)) :
    chat_completion up model messages temperature max_tokens stream = ⟨pf, some e, []⟩ := by
  have hguard :
      (is_anthropic_model model && (inStr "403" e.msg || inStr "404" e.msg)) = false := by
    rcases hcase with h | ⟨h1, h2⟩
    · simp [h]
    · simp [h1, h2]
  simp [chat_completion, hprim, hguard]

/-- Witness for C6: a 403 on an OpenRouter-relayed model propagates
directly, with no fallback candidate attempted. -/
theorem no_fallback_outside_nativealt_or_403_witness :
    chat_completion oracleRelay403 "perplexity/sonar" [⟨"user", "hi"⟩] none none false
      = ⟨[], some ⟨4, "http 403"⟩, []⟩ :=
  no_fallback_outside_nativealt_or_403 oracleRelay403 "perplexity/sonar" [⟨"user", "hi"⟩]
    none none false [] ⟨4, "http 403"⟩ (by decide) (Or.inl (by decide))

/-! ## Claim C10: null message content yields one empty fragment -/

/-- C10: a non-streaming OpenAI-compatible call whose upstream response
message content is null yields exactly one fragment equal to the empty
string (`content or ""`), so `get_completion` returns `""`. -/
theorem openai_null_content_yields_empty (up : Upstream) (model : String)
    (messages : List Msg) (temperature : Option Rat) (max_tokens : Option Nat)
    (hanth : is_anthropic_model model = false)
    (hnull : up.openaiCreate ⟨model, messages, temperature, maxTokensIfTruthy max_tokens⟩
      = Except.ok none) :
    chat_completion up model messages temperature max_tokens false = ⟨[""], none, []⟩ ∧
    get_completion up model messages temperature max_tokens = Except.ok "" := by
  have hpr : primaryRun up model messages temperature max_tokens false = ([""], none) := by
    simp [primaryRun, hanth, hnull]
  have hcc : chat_completion up model messages temperature max_tokens false
      = ⟨[""], none, []⟩ := by
    simp [chat_completion, hpr]
  exact ⟨hcc, by simp [get_completion, hcc, accumLoop]⟩

/-- Witness for C10 at a concrete oracle. -/
theorem openai_null_content_yields_empty_witness :
    chat_completion oracleNullContent "gpt-4o" [⟨"user", "hi"⟩] none none false
        = ⟨[""], none, []⟩ ∧
    get_completion oracleNullContent "gpt-4o" [⟨"user", "hi"⟩] none none = Except.ok "" :=
  openai_null_content_yields_empty oracleNullContent "gpt-4o" [⟨"user", "hi"⟩] none none
    (by decide) rfl
